import Mathlib

/-!
Verification of the protoshark wire-format engine (ys4e/protoshark).

The Rust sources are shallowly embedded as follows:
* machine bytes (`u8`) are `Nat` values, with `% 256` / `&&&` masks applied
  exactly where the Rust code truncates;
* `i32` / `i64` values are `Int`; Rust's arithmetic right shift `v >> s` is
  floor division `v / 2 ^ s` (Lean's `Int` division is euclidean, which is
  floor division for the positive divisors used here), and `v as u8` is
  `(v % 256).toNat`;
* unsigned bit-pattern accumulators are `Nat` with explicit `% 2 ^ w`;
* the recursive message decoder is written with an explicit fuel parameter;
  fuel exhaustion is a distinguished outcome that is proved unreachable for
  the chosen initial fuel (see the termination theorem for C9);
* a Rust panic (the decoder can hit one: slicing `bytes[a..b]` with `a > b`)
  is the distinguished outcome `DecodeErr.crash`.
-/

set_option maxRecDepth 100000

namespace Protoshark

/-- Two's-complement reading of a `w`-bit unsigned pattern `u`
    (the Rust `as i32` / `as i64` reinterpretation of a pattern). -/
def toSigned (w : Nat) (u : Nat) : Int :=
  if u < 2 ^ (w - 1) then (u : Int) else (u : Int) - 2 ^ w

/-- Rust `(value >> s) as u8` on a signed integer: arithmetic shift right
    (floor division by `2 ^ s`) followed by truncation to the low 8 bits. -/
def shrU8 (value : Int) (s : Nat) : Nat := ((value / 2 ^ s) % 256).toNat

/-- Rust `v as usize` on an `i32`, on a 64-bit target: sign-extension to 64
    bits, reinterpreted as an unsigned machine word. -/
def i32AsUsize (v : Int) : Nat := (v % 2 ^ 64).toNat

/-- `struct VarInt(Vec<u8>)` (src/src/varint.rs, duplicated in src/src/lib.rs):
    the continuation-stripped 7-bit groups, most significant group first. -/
structure VarInt where
  data : List Nat

/-- `VarInt::decode`: strip the continuation (high) bit of every input byte,
    then reverse the byte order. -/
def VarInt.decode (bytes : List Nat) : VarInt :=
  ⟨(bytes.map (fun byte => byte &&& 0b01111111)).reverse⟩

/-- `VarInt::encode`: five bytes; byte `i` is `(value >> (i * 7)) as u8`,
    with the continuation bit forced on for `i < 4` and the last byte masked
    to its low 5 bits. -/
def VarInt.encode (value : Int) : List Nat :=
  (List.range 5).map fun i =>
    if i = 4 then shrU8 value (i * 7) &&& 0b00011111
    else shrU8 value (i * 7) ||| 0b10000000

/-- `VarInt::encode_long`: the 10-byte variant for `i64` values. -/
def VarInt.encode_long (value : Int) : List Nat :=
  (List.range 10).map fun i =>
    if i = 9 then shrU8 value (i * 7) &&& 0b00011111
    else shrU8 value (i * 7) ||| 0b10000000

/-- The scan loop of `VarInt::raw_at`: push every byte whose high bit is set,
    plus the first byte whose high bit is clear; if the buffer ends first,
    return everything that was scanned (no error is signalled). -/
def scanVarint : List Nat → List Nat
  | [] => []
  | byte :: rest => if byte >>> 7 == 1 then byte :: scanVarint rest else [byte]

/-- `VarInt::raw_at`: scan the lexical extent of one wire varint
    starting at `index`. -/
def VarInt.raw_at (bytes : List Nat) (index : Nat) : List Nat :=
  scanVarint (bytes.drop index)

/-- `VarInt::decode_at`: the composition of `raw_at` and `decode`, also
    returning the number of consumed bytes. -/
def VarInt.decode_at (bytes : List Nat) (index : Nat) : VarInt × Nat :=
  let raw := VarInt.raw_at bytes index
  (VarInt.decode raw, raw.length)

/-- One step of the `as_i32` / `as_i64` fold at width `w`:
    `value = (value << 7) | byte` on a `w`-bit machine integer, seen on its
    unsigned bit pattern (left shift wraps modulo `2 ^ w`). -/
def foldStep (w : Nat) (value byte : Nat) : Nat := ((value <<< 7) % 2 ^ w) ||| byte

/-- The unsigned `w`-bit pattern accumulated by folding the 7-bit groups. -/
def VarInt.pattern (w : Nat) (v : VarInt) : Nat := v.data.foldl (foldStep w) 0

/-- `VarInt::as_i32`: fold the groups through a 32-bit accumulator and read
    the result as a signed 32-bit integer. -/
def VarInt.as_i32 (v : VarInt) : Int := toSigned 32 (v.pattern 32)

/-- `VarInt::as_i64`: the 64-bit analogue. -/
def VarInt.as_i64 (v : VarInt) : Int := toSigned 64 (v.pattern 64)

/-- `VarInt::as_u32`: `None` if the signed projection is negative, otherwise
    the same value read unsigned. -/
def VarInt.as_u32 (v : VarInt) : Option Nat :=
  let value := v.as_i32
  if value < 0 then none else some value.toNat

/-- `VarInt::as_u64`: the 64-bit analogue. -/
def VarInt.as_u64 (v : VarInt) : Option Nat :=
  let value := v.as_i64
  if value < 0 then none else some value.toNat

/-- `enum WireType` (src/src/lib.rs). -/
inductive WireType where
  | varInt
  | fixed64
  | lengthDelimited
  | startGroup
  | endGroup
  | fixed32
deriving DecidableEq

/-- `impl TryFrom<u8> for WireType`. -/
def WireType.tryFrom (value : Nat) : Except Unit WireType :=
  match value with
  | 0 => .ok .varInt
  | 1 => .ok .fixed64
  | 2 => .ok .lengthDelimited
  | 3 => .ok .startGroup
  | 4 => .ok .endGroup
  | 5 => .ok .fixed32
  | _ => .error ()

/-- The wire-type code table of spec section 4.2 (the inverse of `tryFrom`). -/
def WireType.code : WireType → Nat
  | .varInt => 0
  | .fixed64 => 1
  | .lengthDelimited => 2
  | .startGroup => 3
  | .endGroup => 4
  | .fixed32 => 5

/-- `struct Header` (src/src/lib.rs). -/
structure Header where
  field_number : Int
  wire_type : WireType

/-- `Header::decode`: decode the raw varint bytes, take the signed 32-bit
    projection; the wire type comes from `0b0000_0111 & int as u8` and the
    field number is `int >> 3` (arithmetic shift, i.e. floor division by 8).
    No negativity check is performed. -/
def Header.decode (bytes : List Nat) : Except Unit Header :=
  let varint := VarInt.decode bytes
  let int := varint.as_i32
  match WireType.tryFrom (0b00000111 &&& (int % 256).toNat) with
  | .ok w => .ok ⟨int / 8, w⟩
  | .error e => .error e

/-- Modelled from the spec: `Header::new(field, t).to_bytes()` is referenced
    by src/src/bytes.rs but its definition is not under src/.  Spec section
    4.2: compute `(field_number << 3) | wire_type_code` and append its VarInt
    encoding via the section 4.1 `encode`. -/
def Header.to_bytes (field : Nat) (w : WireType) : List Nat :=
  VarInt.encode (((field <<< 3) ||| WireType.code w : Nat) : Int)

mutual
/-- `enum Value` (src/src/lib.rs).  Floats are stored as their raw
    little-endian byte patterns (a bijective view of `f32::from_le_bytes` /
    `f64::from_le_bytes`); strings are stored as their UTF-8 bytes. -/
inductive Value where
  | varInt (v : VarInt)
  | float (le : List Nat)
  | double (le : List Nat)
  | string (utf8 : List Nat)
  | bytes (data : List Nat)
  | message (fields : List (Int × Value))
end

/-- `BTreeMap<i32, Value>`, modelled as an association list sorted by key. -/
abbrev SerializedMessage := List (Int × Value)

/-- `BTreeMap::insert`: keep keys sorted; an existing binding for the same
    key is overwritten. -/
def insertKV (k : Int) (v : Value) : SerializedMessage → SerializedMessage
  | [] => [(k, v)]
  | (k2, v2) :: rest =>
    if k < k2 then (k, v) :: (k2, v2) :: rest
    else if k = k2 then (k, v) :: rest
    else (k2, v2) :: insertKV k v rest

/-- Whether `b` is a UTF-8 continuation byte (`0x80..=0xBF`). -/
def utf8Cont (b : Nat) : Bool := 128 ≤ b && b < 192

/-- `std::str::from_utf8` validity (RFC 3629 strict UTF-8, as implemented by
    the Rust standard library): no overlong forms, no surrogates, maximum
    scalar value U+10FFFF. -/
def utf8Valid : List Nat → Bool
  | [] => true
  | b :: rest =>
    if b < 128 then utf8Valid rest
    else if b < 194 then false
    else if b < 224 then
      match rest with
      | c1 :: r => utf8Cont c1 && utf8Valid r
      | [] => false
    else if b < 240 then
      match rest with
      | c1 :: c2 :: r =>
        (if b = 224 then decide (160 ≤ c1 ∧ c1 < 192)
         else if b = 237 then decide (128 ≤ c1 ∧ c1 < 160)
         else utf8Cont c1) && utf8Cont c2 && utf8Valid r
      | _ => false
    else if b < 245 then
      match rest with
      | c1 :: c2 :: c3 :: r =>
        (if b = 240 then decide (144 ≤ c1 ∧ c1 < 192)
         else if b = 244 then decide (128 ≤ c1 ∧ c1 < 144)
         else utf8Cont c1) && utf8Cont c2 && utf8Cont c3 && utf8Valid r
      | _ => false
    else false

/-- The outcomes of `decode`.  `str` carries the Rust error string; `crash`
    is a Rust panic (reachable: a length-delimited length varint with a
    negative signed projection makes `bytes[index..index + len as usize]`
    panic, in both debug and release profiles); `fuel` is the model's fuel
    exhaustion, proved unreachable for the initial fuel used by `decode`. -/
inductive DecodeErr where
  | str (msg : String)
  | crash
  | fuel
deriving DecidableEq

/-- The loop of `pub fn decode` (src/src/lib.rs), with explicit fuel.
    Each iteration: scan a header varint, decode the header, branch on the
    wire type.  The recursive sub-decode of a length-delimited slice is a
    fresh run on the slice; a crash in it unwinds through this call. -/
def decodeGo : Nat → List Nat → Nat → SerializedMessage → Except DecodeErr SerializedMessage
  | 0, _, _, _ => .error .fuel
  | fuel + 1, bytes, index, message =>
    if index < bytes.length then
      let varint := VarInt.raw_at bytes index
      match Header.decode varint with
      | .error _ => .error (.str "Invalid wire type specified")
      | .ok header =>
        let index1 := index + varint.length
        match header.wire_type with
        | .varInt =>
          let vl := VarInt.decode_at bytes index1
          decodeGo fuel bytes (index1 + vl.2)
            (insertKV header.field_number (.varInt vl.1) message)
        | .fixed64 =>
          if bytes.length < index1 ∨ bytes.length < index1 + 8 then
            .error (.str "Invalid message; not enough bytes for a fixed64 field.")
          else
            decodeGo fuel bytes (index1 + 8)
              (insertKV header.field_number (.double ((bytes.drop index1).take 8)) message)
        | .lengthDelimited =>
          let dl := VarInt.decode_at bytes index1
          let index2 := index1 + dl.2
          let n := i32AsUsize dl.1.as_i32
          let stop := (index2 + n) % 2 ^ 64
          if bytes.length < index2 ∨ bytes.length < stop then
            .error (.str "Invalid message; not enough bytes for a length-delimited field.")
          else if stop < index2 then
            .error .crash
          else
            let slice := (bytes.drop index2).take (stop - index2)
            match decodeGo fuel slice 0 [] with
            | .error .crash => .error .crash
            | .error .fuel => .error .fuel
            | .error (.str _) =>
              if utf8Valid slice then
                decodeGo fuel bytes stop
                  (insertKV header.field_number (.string slice) message)
              else
                decodeGo fuel bytes stop
                  (insertKV header.field_number (.bytes slice) message)
            | .ok sub =>
              if utf8Valid slice then
                decodeGo fuel bytes stop
                  (insertKV header.field_number (.message sub)
                    (insertKV header.field_number (.string slice) message))
              else
                decodeGo fuel bytes stop
                  (insertKV header.field_number (.message sub) message)
        | .startGroup => .error (.str "Start group wire type is not supported.")
        | .endGroup => .error (.str "End group wire type is not supported.")
        | .fixed32 =>
          if bytes.length < index1 ∨ bytes.length < index1 + 4 then
            .error (.str "Invalid message; not enough bytes for a fixed32 field.")
          else
            decodeGo fuel bytes (index1 + 4)
              (insertKV header.field_number (.float ((bytes.drop index1).take 4)) message)
    else
      .ok message

/-- `pub fn decode(bytes) -> Result<SerializedMessage, _>`.  The initial
    fuel `bytes.length + 1` is sufficient (theorem for C9). -/
def decode (bytes : List Nat) : Except DecodeErr SerializedMessage :=
  decodeGo (bytes.length + 1) bytes 0 []

/-- `ProtobufBytes::write_i32` for `Vec<u8>` (src/src/bytes.rs): append the
    header for `(field, WireType::VarInt)` then `VarInt::encode(value)`. -/
def write_i32 (buf : List Nat) (field : Nat) (value : Int) : List Nat :=
  buf ++ Header.to_bytes field .varInt ++ VarInt.encode value

/-- The candidate set produced by `impl Serialize for VarInt`
    (src/src/varint.rs): `i32` always, then optional `i64`, `u32`, `u64`. -/
structure NumericView where
  i32 : Int
  i64 : Option Int
  u32 : Option Nat
  u64 : Option Nat

/-- `impl Serialize for VarInt`, as the candidate set it serializes.
    `i64` is kept when there are at least 8 groups and it differs from the
    sign-extended `i32`; `u32` is kept when `as_u32` is `Some` and
    (`i32 < 0` or `i32 as u32` differs from it); `u64` is kept inside the
    `u32` branch when there are at least 8 groups, `as_u64` is `Some`, and
    it differs from the widened `u32`. -/
def VarInt.serializeView (v : VarInt) : NumericView :=
  let i32v := v.as_i32
  let i64v : Option Int :=
    if 8 ≤ v.data.length then
      if v.as_i64 = i32v then none else some v.as_i64
    else none
  match v.as_u32 with
  | none => ⟨i32v, i64v, none, none⟩
  | some u32v =>
    if i32v < 0 ∨ (i32v % 2 ^ 32).toNat ≠ u32v then
      let u64v : Option Nat :=
        if 8 ≤ v.data.length then
          match v.as_u64 with
          | some x => if x = u32v then none else some x
          | none => none
        else none
      ⟨i32v, i64v, some u32v, u64v⟩
    else ⟨i32v, i64v, none, none⟩


lemma shrU8_lt (v : Int) (s : Nat) : shrU8 v s < 256 := by
  unfold shrU8
  have h1 : (v / 2 ^ s) % 256 < 256 := Int.emod_lt_of_pos _ (by norm_num)
  have h2 : 0 ≤ (v / 2 ^ s) % 256 := Int.emod_nonneg _ (by norm_num)
  omega

lemma shrU8_cast (v : Int) (s : Nat) : ((shrU8 v s : Nat) : Int) = (v / 2 ^ s) % 256 := by
  unfold shrU8
  rw [Int.toNat_of_nonneg (Int.emod_nonneg _ (by norm_num))]

lemma mask127_or128 : ∀ x < 256, (x ||| 128) &&& 127 = x % 128 := by decide

lemma mask127_and31 : ∀ x < 256, (x &&& 31) &&& 127 = x % 32 := by decide

lemma foldStep32_eq (a b : Nat) (hb : b < 128) :
    foldStep 32 a b = 2 ^ 7 * (a % 2 ^ 25) + b := by
  unfold foldStep
  rw [Nat.shiftLeft_eq, show (2:Nat) ^ 32 = 2 ^ 25 * 2 ^ 7 by norm_num,
    Nat.mul_mod_mul_right, Nat.mul_comm (a % 2 ^ 25) (2 ^ 7),
    ← Nat.mul_add_lt_is_or (by omega : b < 2 ^ 7)]

lemma assemble32 (v : Int) (h1 : -(2 ^ 31) ≤ v) (h2 : v < 2 ^ 31)
    (x0 x1 x2 x3 x4 : Nat)
    (e0 : (x0 : Int) = (v / 2 ^ 0) % 256)
    (e1 : (x1 : Int) = (v / 2 ^ 7) % 256)
    (e2 : (x2 : Int) = (v / 2 ^ 14) % 256)
    (e3 : (x3 : Int) = (v / 2 ^ 21) % 256)
    (e4 : (x4 : Int) = (v / 2 ^ 28) % 256) :
    toSigned 32 (foldStep 32 (foldStep 32 (foldStep 32 (foldStep 32
      (foldStep 32 0 (x4 % 32)) (x3 % 128)) (x2 % 128)) (x1 % 128)) (x0 % 128)) = v := by
  rw [foldStep32_eq _ _ (by omega), foldStep32_eq _ _ (by omega),
    foldStep32_eq _ _ (by omega), foldStep32_eq _ _ (by omega),
    foldStep32_eq _ _ (by omega)]
  unfold toSigned
  split <;> omega

lemma roundtrip32 (v : Int) (h1 : -(2 ^ 31) ≤ v) (h2 : v < 2 ^ 31) :
    (VarInt.decode (VarInt.encode v)).as_i32 = v := by
  have hdata : (VarInt.decode (VarInt.encode v)).data =
      [shrU8 v 28 % 32, shrU8 v 21 % 128, shrU8 v 14 % 128,
       shrU8 v 7 % 128, shrU8 v 0 % 128] := by
    show [((shrU8 v 28 &&& 31) &&& 127), ((shrU8 v 21 ||| 128) &&& 127),
          ((shrU8 v 14 ||| 128) &&& 127), ((shrU8 v 7 ||| 128) &&& 127),
          ((shrU8 v 0 ||| 128) &&& 127)] = _
    rw [mask127_and31 _ (shrU8_lt v 28), mask127_or128 _ (shrU8_lt v 21),
      mask127_or128 _ (shrU8_lt v 14), mask127_or128 _ (shrU8_lt v 7),
      mask127_or128 _ (shrU8_lt v 0)]
  show toSigned 32 ((VarInt.decode (VarInt.encode v)).pattern 32) = v
  rw [VarInt.pattern, hdata]
  show toSigned 32 (foldStep 32 (foldStep 32 (foldStep 32 (foldStep 32
      (foldStep 32 0 (shrU8 v 28 % 32)) (shrU8 v 21 % 128)) (shrU8 v 14 % 128))
      (shrU8 v 7 % 128)) (shrU8 v 0 % 128)) = v
  exact assemble32 v h1 h2 _ _ _ _ _ (shrU8_cast v 0) (shrU8_cast v 7)
    (shrU8_cast v 14) (shrU8_cast v 21) (shrU8_cast v 28)

end Protoshark

namespace Protoshark

lemma foldStep64_eq (a b : Nat) (hb : b < 128) :
    foldStep 64 a b = 2 ^ 7 * (a % 2 ^ 57) + b := by
  unfold foldStep
  rw [Nat.shiftLeft_eq, show (2:Nat) ^ 64 = 2 ^ 57 * 2 ^ 7 by norm_num,
    Nat.mul_mod_mul_right, Nat.mul_comm (a % 2 ^ 57) (2 ^ 7),
    ← Nat.mul_add_lt_is_or (by omega : b < 2 ^ 7)]

lemma emod_toNat_lt (v : Int) (w : Nat) : (v % (2 ^ w : Int)).toNat < 2 ^ w := by
  have h1 : v % (2 ^ w : Int) < 2 ^ w := Int.emod_lt_of_pos _ (by positivity)
  have h2 : 0 ≤ v % (2 ^ w : Int) := Int.emod_nonneg _ (by positivity)
  have h3 : ((2 ^ w : Nat) : Int) = (2 ^ w : Int) := by push_cast; ring
  omega

lemma emod_toNat_cast (v : Int) (w : Nat) :
    (((v % (2 ^ w : Int)).toNat : Nat) : Int) = v % 2 ^ w :=
  Int.toNat_of_nonneg (Int.emod_nonneg _ (by positivity))

lemma dmicro0 (v : Int) (u x : Nat) (hu : (u : Int) = v % 2 ^ 64)
    (e : (x : Int) = (v / 2 ^ 0) % 256) : x % 128 = u / 2 ^ 0 % 128 := by omega

lemma dmicro7 (v : Int) (u x : Nat) (hu : (u : Int) = v % 2 ^ 64)
    (e : (x : Int) = (v / 2 ^ 7) % 256) : x % 128 = u / 2 ^ 7 % 128 := by omega

lemma dmicro14 (v : Int) (u x : Nat) (hu : (u : Int) = v % 2 ^ 64)
    (e : (x : Int) = (v / 2 ^ 14) % 256) : x % 128 = u / 2 ^ 14 % 128 := by omega

lemma dmicro21 (v : Int) (u x : Nat) (hu : (u : Int) = v % 2 ^ 64)
    (e : (x : Int) = (v / 2 ^ 21) % 256) : x % 128 = u / 2 ^ 21 % 128 := by omega

lemma dmicro28 (v : Int) (u x : Nat) (hu : (u : Int) = v % 2 ^ 64)
    (e : (x : Int) = (v / 2 ^ 28) % 256) : x % 128 = u / 2 ^ 28 % 128 := by omega

lemma dmicro35 (v : Int) (u x : Nat) (hu : (u : Int) = v % 2 ^ 64)
    (e : (x : Int) = (v / 2 ^ 35) % 256) : x % 128 = u / 2 ^ 35 % 128 := by omega

lemma dmicro42 (v : Int) (u x : Nat) (hu : (u : Int) = v % 2 ^ 64)
    (e : (x : Int) = (v / 2 ^ 42) % 256) : x % 128 = u / 2 ^ 42 % 128 := by omega

lemma dmicro49 (v : Int) (u x : Nat) (hu : (u : Int) = v % 2 ^ 64)
    (e : (x : Int) = (v / 2 ^ 49) % 256) : x % 128 = u / 2 ^ 49 % 128 := by omega

lemma dmicro56 (v : Int) (u x : Nat) (hu : (u : Int) = v % 2 ^ 64)
    (e : (x : Int) = (v / 2 ^ 56) % 256) : x % 128 = u / 2 ^ 56 % 128 := by omega

lemma dmicro63 (v : Int) (u x : Nat) (hu : (u : Int) = v % 2 ^ 64)
    (h1 : -(2 ^ 63) ≤ v) (h2 : v < 2 ^ 63)
    (e : (x : Int) = (v / 2 ^ 63) % 256) : x % 32 = 31 * (u / 2 ^ 63) := by omega

set_option maxHeartbeats 1000000 in
lemma natDecomp64 (u : Nat) (_hu : u < 2 ^ 64) :
    u = u / 2 ^ 0 % 128 + 2 ^ 7 * (u / 2 ^ 7 % 128) + 2 ^ 14 * (u / 2 ^ 14 % 128)
      + 2 ^ 21 * (u / 2 ^ 21 % 128) + 2 ^ 28 * (u / 2 ^ 28 % 128)
      + 2 ^ 35 * (u / 2 ^ 35 % 128) + 2 ^ 42 * (u / 2 ^ 42 % 128)
      + 2 ^ 49 * (u / 2 ^ 49 % 128) + 2 ^ 56 * (u / 2 ^ 56 % 128)
      + 2 ^ 63 * (u / 2 ^ 63) := by
  omega

lemma toSigned64_eq (v : Int) (u : Nat) (h1 : -(2 ^ 63) ≤ v) (h2 : v < 2 ^ 63)
    (hu : (u : Int) = v % 2 ^ 64) (hult : u < 2 ^ 64) : toSigned 64 u = v := by
  unfold toSigned
  split <;> omega

lemma foldAssemble64 (u s m0 m1 m2 m3 m4 m5 m6 m7 m8 : Nat)
    (hs : s < 2) (hb0 : m0 < 128) (hb1 : m1 < 128) (hb2 : m2 < 128)
    (hb3 : m3 < 128) (hb4 : m4 < 128) (hb5 : m5 < 128) (hb6 : m6 < 128)
    (hb7 : m7 < 128) (hb8 : m8 < 128)
    (hdec : u = m0 + 2 ^ 7 * m1 + 2 ^ 14 * m2 + 2 ^ 21 * m3 + 2 ^ 28 * m4
      + 2 ^ 35 * m5 + 2 ^ 42 * m6 + 2 ^ 49 * m7 + 2 ^ 56 * m8 + 2 ^ 63 * s) :
    foldStep 64 (foldStep 64 (foldStep 64 (foldStep 64 (foldStep 64
      (foldStep 64 (foldStep 64 (foldStep 64 (foldStep 64 (foldStep 64 0
      (31 * s)) m8) m7) m6) m5) m4) m3) m2) m1) m0 = u := by
  have t1 : foldStep 64 0 (31 * s) = 31 * s := by
    rw [foldStep64_eq _ _ (by omega)]; omega
  have t2 : foldStep 64 (31 * s) m8 = 2 ^ 7 * (31 * s) + m8 := by
    rw [foldStep64_eq _ _ (by omega)]; omega
  have t3 : foldStep 64 (2 ^ 7 * (31 * s) + m8) m7
      = 2 ^ 14 * (31 * s) + 2 ^ 7 * m8 + m7 := by
    rw [foldStep64_eq _ _ (by omega)]; omega
  have t4 : foldStep 64 (2 ^ 14 * (31 * s) + 2 ^ 7 * m8 + m7) m6
      = 2 ^ 21 * (31 * s) + 2 ^ 14 * m8 + 2 ^ 7 * m7 + m6 := by
    rw [foldStep64_eq _ _ (by omega)]; omega
  have t5 : foldStep 64 (2 ^ 21 * (31 * s) + 2 ^ 14 * m8 + 2 ^ 7 * m7 + m6) m5
      = 2 ^ 28 * (31 * s) + 2 ^ 21 * m8 + 2 ^ 14 * m7 + 2 ^ 7 * m6 + m5 := by
    rw [foldStep64_eq _ _ (by omega)]; omega
  have t6 : foldStep 64 (2 ^ 28 * (31 * s) + 2 ^ 21 * m8 + 2 ^ 14 * m7
        + 2 ^ 7 * m6 + m5) m4
      = 2 ^ 35 * (31 * s) + 2 ^ 28 * m8 + 2 ^ 21 * m7 + 2 ^ 14 * m6
        + 2 ^ 7 * m5 + m4 := by
    rw [foldStep64_eq _ _ (by omega)]; omega
  have t7 : foldStep 64 (2 ^ 35 * (31 * s) + 2 ^ 28 * m8 + 2 ^ 21 * m7
        + 2 ^ 14 * m6 + 2 ^ 7 * m5 + m4) m3
      = 2 ^ 42 * (31 * s) + 2 ^ 35 * m8 + 2 ^ 28 * m7 + 2 ^ 21 * m6
        + 2 ^ 14 * m5 + 2 ^ 7 * m4 + m3 := by
    rw [foldStep64_eq _ _ (by omega)]; omega
  have t8 : foldStep 64 (2 ^ 42 * (31 * s) + 2 ^ 35 * m8 + 2 ^ 28 * m7
        + 2 ^ 21 * m6 + 2 ^ 14 * m5 + 2 ^ 7 * m4 + m3) m2
      = 2 ^ 49 * (31 * s) + 2 ^ 42 * m8 + 2 ^ 35 * m7 + 2 ^ 28 * m6
        + 2 ^ 21 * m5 + 2 ^ 14 * m4 + 2 ^ 7 * m3 + m2 := by
    rw [foldStep64_eq _ _ (by omega)]; omega
  have t9 : foldStep 64 (2 ^ 49 * (31 * s) + 2 ^ 42 * m8 + 2 ^ 35 * m7
        + 2 ^ 28 * m6 + 2 ^ 21 * m5 + 2 ^ 14 * m4 + 2 ^ 7 * m3 + m2) m1
      = 2 ^ 56 * (31 * s) + 2 ^ 49 * m8 + 2 ^ 42 * m7 + 2 ^ 35 * m6
        + 2 ^ 28 * m5 + 2 ^ 21 * m4 + 2 ^ 14 * m3 + 2 ^ 7 * m2 + m1 := by
    rw [foldStep64_eq _ _ (by omega)]; omega
  have t10 : foldStep 64 (2 ^ 56 * (31 * s) + 2 ^ 49 * m8 + 2 ^ 42 * m7
        + 2 ^ 35 * m6 + 2 ^ 28 * m5 + 2 ^ 21 * m4 + 2 ^ 14 * m3
        + 2 ^ 7 * m2 + m1) m0 = u := by
    rw [foldStep64_eq _ _ (by omega)]; omega
  rw [t1, t2, t3, t4, t5, t6, t7, t8, t9, t10]

lemma assemble64 (v : Int) (h1 : -(2 ^ 63) ≤ v) (h2 : v < 2 ^ 63)
    (x0 x1 x2 x3 x4 x5 x6 x7 x8 x9 : Nat)
    (e0 : (x0 : Int) = (v / 2 ^ 0) % 256)
    (e1 : (x1 : Int) = (v / 2 ^ 7) % 256)
    (e2 : (x2 : Int) = (v / 2 ^ 14) % 256)
    (e3 : (x3 : Int) = (v / 2 ^ 21) % 256)
    (e4 : (x4 : Int) = (v / 2 ^ 28) % 256)
    (e5 : (x5 : Int) = (v / 2 ^ 35) % 256)
    (e6 : (x6 : Int) = (v / 2 ^ 42) % 256)
    (e7 : (x7 : Int) = (v / 2 ^ 49) % 256)
    (e8 : (x8 : Int) = (v / 2 ^ 56) % 256)
    (e9 : (x9 : Int) = (v / 2 ^ 63) % 256) :
    toSigned 64 (foldStep 64 (foldStep 64 (foldStep 64 (foldStep 64 (foldStep 64
      (foldStep 64 (foldStep 64 (foldStep 64 (foldStep 64 (foldStep 64 0
      (x9 % 32)) (x8 % 128)) (x7 % 128)) (x6 % 128)) (x5 % 128)) (x4 % 128))
      (x3 % 128)) (x2 % 128)) (x1 % 128)) (x0 % 128)) = v := by
  have hu : (((v % (2 ^ 64 : Int)).toNat : Nat) : Int) = v % 2 ^ 64 := emod_toNat_cast v 64
  have hult : (v % (2 ^ 64 : Int)).toNat < 2 ^ 64 := emod_toNat_lt v 64
  rw [dmicro0 v _ x0 hu e0, dmicro7 v _ x1 hu e1, dmicro14 v _ x2 hu e2,
    dmicro21 v _ x3 hu e3, dmicro28 v _ x4 hu e4, dmicro35 v _ x5 hu e5,
    dmicro42 v _ x6 hu e6, dmicro49 v _ x7 hu e7, dmicro56 v _ x8 hu e8,
    dmicro63 v _ x9 hu h1 h2 e9]
  rw [foldAssemble64 _ _ _ _ _ _ _ _ _ _ _
    (Nat.div_lt_of_lt_mul (by omega)) (Nat.mod_lt _ (by norm_num))
    (Nat.mod_lt _ (by norm_num)) (Nat.mod_lt _ (by norm_num))
    (Nat.mod_lt _ (by norm_num)) (Nat.mod_lt _ (by norm_num))
    (Nat.mod_lt _ (by norm_num)) (Nat.mod_lt _ (by norm_num))
    (Nat.mod_lt _ (by norm_num)) (Nat.mod_lt _ (by norm_num))
    (natDecomp64 _ hult)]
  exact toSigned64_eq v _ h1 h2 hu hult

set_option maxHeartbeats 1000000 in
lemma roundtrip64 (v : Int) (h1 : -(2 ^ 63) ≤ v) (h2 : v < 2 ^ 63) :
    (VarInt.decode (VarInt.encode_long v)).as_i64 = v := by
  have hdata : (VarInt.decode (VarInt.encode_long v)).data =
      [shrU8 v 63 % 32, shrU8 v 56 % 128, shrU8 v 49 % 128, shrU8 v 42 % 128,
       shrU8 v 35 % 128, shrU8 v 28 % 128, shrU8 v 21 % 128, shrU8 v 14 % 128,
       shrU8 v 7 % 128, shrU8 v 0 % 128] := by
    show [((shrU8 v 63 &&& 31) &&& 127), ((shrU8 v 56 ||| 128) &&& 127),
          ((shrU8 v 49 ||| 128) &&& 127), ((shrU8 v 42 ||| 128) &&& 127),
          ((shrU8 v 35 ||| 128) &&& 127), ((shrU8 v 28 ||| 128) &&& 127),
          ((shrU8 v 21 ||| 128) &&& 127), ((shrU8 v 14 ||| 128) &&& 127),
          ((shrU8 v 7 ||| 128) &&& 127), ((shrU8 v 0 ||| 128) &&& 127)] = _
    rw [mask127_and31 _ (shrU8_lt v 63), mask127_or128 _ (shrU8_lt v 56),
      mask127_or128 _ (shrU8_lt v 49), mask127_or128 _ (shrU8_lt v 42),
      mask127_or128 _ (shrU8_lt v 35), mask127_or128 _ (shrU8_lt v 28),
      mask127_or128 _ (shrU8_lt v 21), mask127_or128 _ (shrU8_lt v 14),
      mask127_or128 _ (shrU8_lt v 7), mask127_or128 _ (shrU8_lt v 0)]
  show toSigned 64 ((VarInt.decode (VarInt.encode_long v)).pattern 64) = v
  rw [VarInt.pattern, hdata]
  show toSigned 64 (foldStep 64 (foldStep 64 (foldStep 64 (foldStep 64 (foldStep 64
      (foldStep 64 (foldStep 64 (foldStep 64 (foldStep 64 (foldStep 64 0
      (shrU8 v 63 % 32)) (shrU8 v 56 % 128)) (shrU8 v 49 % 128)) (shrU8 v 42 % 128))
      (shrU8 v 35 % 128)) (shrU8 v 28 % 128)) (shrU8 v 21 % 128)) (shrU8 v 14 % 128))
      (shrU8 v 7 % 128)) (shrU8 v 0 % 128)) = v
  exact assemble64 v h1 h2 _ _ _ _ _ _ _ _ _ _ (shrU8_cast v 0) (shrU8_cast v 7)
    (shrU8_cast v 14) (shrU8_cast v 21) (shrU8_cast v 28) (shrU8_cast v 35)
    (shrU8_cast v 42) (shrU8_cast v 49) (shrU8_cast v 56) (shrU8_cast v 63)

/-! ## Claim C1 -/

/-- C1: for every 32-bit signed integer `v`, decoding `VarInt::encode(v)` with
    `VarInt::decode` and projecting with `as_i32` yields `v` again; likewise
    for every 64-bit signed integer via `encode_long` / `as_i64`. -/
theorem claim_C1_varint_roundtrip :
    (∀ v : Int, -(2 ^ 31) ≤ v → v < 2 ^ 31 →
      (VarInt.decode (VarInt.encode v)).as_i32 = v) ∧
    (∀ v : Int, -(2 ^ 63) ≤ v → v < 2 ^ 63 →
      (VarInt.decode (VarInt.encode_long v)).as_i64 = v) :=
  ⟨roundtrip32, roundtrip64⟩

/-- Witness for C1 at the fixture values −33334 and −99999999999. -/
theorem claim_C1_varint_roundtrip_witness :
    (VarInt.decode (VarInt.encode (-33334))).as_i32 = -33334 ∧
    (VarInt.decode (VarInt.encode_long (-99999999999))).as_i64 = -99999999999 :=
  ⟨claim_C1_varint_roundtrip.1 (-33334) (by norm_num) (by norm_num),
   claim_C1_varint_roundtrip.2 (-99999999999) (by norm_num) (by norm_num)⟩

/-! ## Claim C6: encoder shape -/

/-- The `w`-bit two's-complement pattern of a signed value (used to state the
    spec's description of the encoders). -/
def extPattern (w : Nat) (value : Int) : Nat := (value % (2 ^ w : Int)).toNat

/-- The 5-byte sequence described by spec section 4.1 for `encode`: the 7-bit
    groups `[0..7) … [28..35)` of the arithmetic-shifted two's-complement
    pattern, continuation bit set on all but the last byte, and the last byte
    masked to its low 5 bits. -/
def specEncode (value : Int) : List Nat :=
  (List.range 5).map fun i =>
    let g := extPattern 35 value / 2 ^ (i * 7) % 128
    if i = 4 then g % 32 else g ||| 128

/-- The 10-byte sequence described by spec section 4.1 for `encode_long`
    (groups through `[63..70)`, last byte masked to 5 bits). -/
def specEncodeLong (value : Int) : List Nat :=
  (List.range 10).map fun i =>
    let g := extPattern 70 value / 2 ^ (i * 7) % 128
    if i = 9 then g % 32 else g ||| 128

lemma or128_mod : ∀ x < 256, x ||| 128 = x % 128 ||| 128 := by decide

lemma and31_mod : ∀ x < 256, x &&& 31 = x % 32 := by decide

lemma smicro0 (v : Int) (u x : Nat) (hu : (u : Int) = v % 2 ^ 35)
    (e : (x : Int) = (v / 2 ^ 0) % 256) : x % 128 = u / 2 ^ 0 % 128 := by omega

lemma smicro7 (v : Int) (u x : Nat) (hu : (u : Int) = v % 2 ^ 35)
    (e : (x : Int) = (v / 2 ^ 7) % 256) : x % 128 = u / 2 ^ 7 % 128 := by omega

lemma smicro14 (v : Int) (u x : Nat) (hu : (u : Int) = v % 2 ^ 35)
    (e : (x : Int) = (v / 2 ^ 14) % 256) : x % 128 = u / 2 ^ 14 % 128 := by omega

lemma smicro21 (v : Int) (u x : Nat) (hu : (u : Int) = v % 2 ^ 35)
    (e : (x : Int) = (v / 2 ^ 21) % 256) : x % 128 = u / 2 ^ 21 % 128 := by omega

lemma smicro28 (v : Int) (u x : Nat) (hu : (u : Int) = v % 2 ^ 35)
    (e : (x : Int) = (v / 2 ^ 28) % 256) : x % 32 = u / 2 ^ 28 % 32 := by omega

lemma gmicro0 (v : Int) (u x : Nat) (hu : (u : Int) = v % 2 ^ 70)
    (e : (x : Int) = (v / 2 ^ 0) % 256) : x % 128 = u / 2 ^ 0 % 128 := by omega

lemma gmicro7 (v : Int) (u x : Nat) (hu : (u : Int) = v % 2 ^ 70)
    (e : (x : Int) = (v / 2 ^ 7) % 256) : x % 128 = u / 2 ^ 7 % 128 := by omega

lemma gmicro14 (v : Int) (u x : Nat) (hu : (u : Int) = v % 2 ^ 70)
    (e : (x : Int) = (v / 2 ^ 14) % 256) : x % 128 = u / 2 ^ 14 % 128 := by omega

lemma gmicro21 (v : Int) (u x : Nat) (hu : (u : Int) = v % 2 ^ 70)
    (e : (x : Int) = (v / 2 ^ 21) % 256) : x % 128 = u / 2 ^ 21 % 128 := by omega

lemma gmicro28 (v : Int) (u x : Nat) (hu : (u : Int) = v % 2 ^ 70)
    (e : (x : Int) = (v / 2 ^ 28) % 256) : x % 128 = u / 2 ^ 28 % 128 := by omega

lemma gmicro35 (v : Int) (u x : Nat) (hu : (u : Int) = v % 2 ^ 70)
    (e : (x : Int) = (v / 2 ^ 35) % 256) : x % 128 = u / 2 ^ 35 % 128 := by omega

lemma gmicro42 (v : Int) (u x : Nat) (hu : (u : Int) = v % 2 ^ 70)
    (e : (x : Int) = (v / 2 ^ 42) % 256) : x % 128 = u / 2 ^ 42 % 128 := by omega

lemma gmicro49 (v : Int) (u x : Nat) (hu : (u : Int) = v % 2 ^ 70)
    (e : (x : Int) = (v / 2 ^ 49) % 256) : x % 128 = u / 2 ^ 49 % 128 := by omega

lemma gmicro56 (v : Int) (u x : Nat) (hu : (u : Int) = v % 2 ^ 70)
    (e : (x : Int) = (v / 2 ^ 56) % 256) : x % 128 = u / 2 ^ 56 % 128 := by omega

lemma gmicro63 (v : Int) (u x : Nat) (hu : (u : Int) = v % 2 ^ 70)
    (e : (x : Int) = (v / 2 ^ 63) % 256) : x % 32 = u / 2 ^ 63 % 32 := by omega

lemma encode_eq_spec32 (v : Int) : VarInt.encode v = specEncode v := by
  have hu : ((extPattern 35 v : Nat) : Int) = v % 2 ^ 35 := emod_toNat_cast v 35
  have b0 : shrU8 v 0 ||| 128 = extPattern 35 v / 2 ^ 0 % 128 ||| 128 := by
    rw [or128_mod _ (shrU8_lt v 0), smicro0 v _ _ hu (shrU8_cast v 0)]
  have b1 : shrU8 v 7 ||| 128 = extPattern 35 v / 2 ^ 7 % 128 ||| 128 := by
    rw [or128_mod _ (shrU8_lt v 7), smicro7 v _ _ hu (shrU8_cast v 7)]
  have b2 : shrU8 v 14 ||| 128 = extPattern 35 v / 2 ^ 14 % 128 ||| 128 := by
    rw [or128_mod _ (shrU8_lt v 14), smicro14 v _ _ hu (shrU8_cast v 14)]
  have b3 : shrU8 v 21 ||| 128 = extPattern 35 v / 2 ^ 21 % 128 ||| 128 := by
    rw [or128_mod _ (shrU8_lt v 21), smicro21 v _ _ hu (shrU8_cast v 21)]
  have b4 : shrU8 v 28 &&& 31 = extPattern 35 v / 2 ^ 28 % 128 % 32 := by
    rw [and31_mod _ (shrU8_lt v 28), Nat.mod_mod_of_dvd _ (by norm_num : (32:Nat) ∣ 128)]
    exact smicro28 v _ _ hu (shrU8_cast v 28)
  show [shrU8 v 0 ||| 128, shrU8 v 7 ||| 128, shrU8 v 14 ||| 128,
        shrU8 v 21 ||| 128, shrU8 v 28 &&& 31]
      = [extPattern 35 v / 2 ^ 0 % 128 ||| 128, extPattern 35 v / 2 ^ 7 % 128 ||| 128,
         extPattern 35 v / 2 ^ 14 % 128 ||| 128, extPattern 35 v / 2 ^ 21 % 128 ||| 128,
         extPattern 35 v / 2 ^ 28 % 128 % 32]
  rw [b0, b1, b2, b3, b4]

lemma encode_long_eq_spec64 (v : Int) : VarInt.encode_long v = specEncodeLong v := by
  have hu : ((extPattern 70 v : Nat) : Int) = v % 2 ^ 70 := emod_toNat_cast v 70
  have b0 : shrU8 v 0 ||| 128 = extPattern 70 v / 2 ^ 0 % 128 ||| 128 := by
    rw [or128_mod _ (shrU8_lt v 0), gmicro0 v _ _ hu (shrU8_cast v 0)]
  have b1 : shrU8 v 7 ||| 128 = extPattern 70 v / 2 ^ 7 % 128 ||| 128 := by
    rw [or128_mod _ (shrU8_lt v 7), gmicro7 v _ _ hu (shrU8_cast v 7)]
  have b2 : shrU8 v 14 ||| 128 = extPattern 70 v / 2 ^ 14 % 128 ||| 128 := by
    rw [or128_mod _ (shrU8_lt v 14), gmicro14 v _ _ hu (shrU8_cast v 14)]
  have b3 : shrU8 v 21 ||| 128 = extPattern 70 v / 2 ^ 21 % 128 ||| 128 := by
    rw [or128_mod _ (shrU8_lt v 21), gmicro21 v _ _ hu (shrU8_cast v 21)]
  have b4 : shrU8 v 28 ||| 128 = extPattern 70 v / 2 ^ 28 % 128 ||| 128 := by
    rw [or128_mod _ (shrU8_lt v 28), gmicro28 v _ _ hu (shrU8_cast v 28)]
  have b5 : shrU8 v 35 ||| 128 = extPattern 70 v / 2 ^ 35 % 128 ||| 128 := by
    rw [or128_mod _ (shrU8_lt v 35), gmicro35 v _ _ hu (shrU8_cast v 35)]
  have b6 : shrU8 v 42 ||| 128 = extPattern 70 v / 2 ^ 42 % 128 ||| 128 := by
    rw [or128_mod _ (shrU8_lt v 42), gmicro42 v _ _ hu (shrU8_cast v 42)]
  have b7 : shrU8 v 49 ||| 128 = extPattern 70 v / 2 ^ 49 % 128 ||| 128 := by
    rw [or128_mod _ (shrU8_lt v 49), gmicro49 v _ _ hu (shrU8_cast v 49)]
  have b8 : shrU8 v 56 ||| 128 = extPattern 70 v / 2 ^ 56 % 128 ||| 128 := by
    rw [or128_mod _ (shrU8_lt v 56), gmicro56 v _ _ hu (shrU8_cast v 56)]
  have b9 : shrU8 v 63 &&& 31 = extPattern 70 v / 2 ^ 63 % 128 % 32 := by
    rw [and31_mod _ (shrU8_lt v 63), Nat.mod_mod_of_dvd _ (by norm_num : (32:Nat) ∣ 128)]
    exact gmicro63 v _ _ hu (shrU8_cast v 63)
  show [shrU8 v 0 ||| 128, shrU8 v 7 ||| 128, shrU8 v 14 ||| 128,
        shrU8 v 21 ||| 128, shrU8 v 28 ||| 128, shrU8 v 35 ||| 128,
        shrU8 v 42 ||| 128, shrU8 v 49 ||| 128, shrU8 v 56 ||| 128,
        shrU8 v 63 &&& 31]
      = [extPattern 70 v / 2 ^ 0 % 128 ||| 128, extPattern 70 v / 2 ^ 7 % 128 ||| 128,
         extPattern 70 v / 2 ^ 14 % 128 ||| 128, extPattern 70 v / 2 ^ 21 % 128 ||| 128,
         extPattern 70 v / 2 ^ 28 % 128 ||| 128, extPattern 70 v / 2 ^ 35 % 128 ||| 128,
         extPattern 70 v / 2 ^ 42 % 128 ||| 128, extPattern 70 v / 2 ^ 49 % 128 ||| 128,
         extPattern 70 v / 2 ^ 56 % 128 ||| 128, extPattern 70 v / 2 ^ 63 % 128 % 32]
  rw [b0, b1, b2, b3, b4, b5, b6, b7, b8, b9]

/-- C6: `VarInt::encode` always emits exactly 5 bytes, equal byte for byte to
    the spec's description (7-bit groups of the arithmetic-shifted
    two's-complement pattern, continuation bits on all but the last byte,
    last byte masked to 5 bits); `VarInt::encode_long` emits exactly 10
    bytes by the identical scheme. -/
theorem claim_C6_encoder_shape :
    (∀ v : Int, -(2 ^ 31) ≤ v → v < 2 ^ 31 →
      (VarInt.encode v).length = 5 ∧ VarInt.encode v = specEncode v) ∧
    (∀ v : Int, -(2 ^ 63) ≤ v → v < 2 ^ 63 →
      (VarInt.encode_long v).length = 10 ∧ VarInt.encode_long v = specEncodeLong v) :=
  ⟨fun v _ _ => ⟨rfl, encode_eq_spec32 v⟩,
   fun v _ _ => ⟨rfl, encode_long_eq_spec64 v⟩⟩

/-- Witness for C6 at the fixture values. -/
theorem claim_C6_encoder_shape_witness :
    ((VarInt.encode (-33334)).length = 5 ∧ VarInt.encode (-33334) = specEncode (-33334)) ∧
    ((VarInt.encode_long (-99999999999)).length = 10 ∧
      VarInt.encode_long (-99999999999) = specEncodeLong (-99999999999)) :=
  ⟨claim_C6_encoder_shape.1 (-33334) (by norm_num) (by norm_num),
   claim_C6_encoder_shape.2 (-99999999999) (by norm_num) (by norm_num)⟩

/-! ## Decoder infrastructure -/

lemma scanVarint_length_pos (l : List Nat) (h : l ≠ []) : 1 ≤ (scanVarint l).length := by
  cases l with
  | nil => exact absurd rfl h
  | cons b rest =>
    simp only [scanVarint]
    split <;> simp

lemma raw_at_length_pos (bytes : List Nat) (index : Nat) (h : index < bytes.length) :
    1 ≤ (VarInt.raw_at bytes index).length := by
  apply scanVarint_length_pos
  intro hc
  have hlen := congrArg List.length hc
  simp only [List.length_drop, List.length_nil] at hlen
  omega

lemma decodeGo_done (fuel : Nat) (bytes : List Nat) (index : Nat)
    (acc : SerializedMessage) (hfuel : 0 < fuel) (h : bytes.length ≤ index) :
    decodeGo fuel bytes index acc = .ok acc := by
  cases fuel with
  | zero => omega
  | succ fuel =>
    simp only [decodeGo]
    rw [if_neg (by omega)]

set_option maxHeartbeats 1000000 in
lemma decodeGo_fuel_mono (f : Nat) :
    ∀ (g : Nat) (bytes : List Nat) (index : Nat) (acc : SerializedMessage),
      bytes.length - index < f → bytes.length - index < g →
      decodeGo f bytes index acc = decodeGo g bytes index acc := by
  induction f using Nat.strong_induction_on with
  | _ f IH =>
  intro g bytes index acc hf hg
  cases f with
  | zero => omega
  | succ f =>
  cases g with
  | zero => omega
  | succ g =>
  simp only [decodeGo]
  by_cases hidx : index < bytes.length
  · rw [if_pos hidx, if_pos hidx]
    have hvlen : 1 ≤ (VarInt.raw_at bytes index).length := raw_at_length_pos bytes index hidx
    cases hH : Header.decode (VarInt.raw_at bytes index) with
    | error e => simp only
    | ok header =>
      simp only
      obtain ⟨fn, wt⟩ := header
      cases wt with
      | varInt =>
        simp only
        exact IH f (by omega) g bytes _ _ (by omega) (by omega)
      | fixed64 =>
        simp only
        by_cases hc : bytes.length < index + (VarInt.raw_at bytes index).length ∨
            bytes.length < index + (VarInt.raw_at bytes index).length + 8
        · rw [if_pos hc, if_pos hc]
        · rw [if_neg hc, if_neg hc]
          exact IH f (by omega) g bytes _ _ (by omega) (by omega)
      | lengthDelimited =>
        simp only
        by_cases hc : bytes.length < index + (VarInt.raw_at bytes index).length +
              (VarInt.decode_at bytes (index + (VarInt.raw_at bytes index).length)).2 ∨
            bytes.length < (index + (VarInt.raw_at bytes index).length +
              (VarInt.decode_at bytes (index + (VarInt.raw_at bytes index).length)).2 +
              i32AsUsize (VarInt.decode_at bytes
                (index + (VarInt.raw_at bytes index).length)).1.as_i32) % 2 ^ 64
        · rw [if_pos hc, if_pos hc]
        · rw [if_neg hc, if_neg hc]
          by_cases hs : (index + (VarInt.raw_at bytes index).length +
              (VarInt.decode_at bytes (index + (VarInt.raw_at bytes index).length)).2 +
              i32AsUsize (VarInt.decode_at bytes
                (index + (VarInt.raw_at bytes index).length)).1.as_i32) % 2 ^ 64 <
              index + (VarInt.raw_at bytes index).length +
              (VarInt.decode_at bytes (index + (VarInt.raw_at bytes index).length)).2
          · rw [if_pos hs, if_pos hs]
          · rw [if_neg hs, if_neg hs]
            have hslice : ((bytes.drop (index + (VarInt.raw_at bytes index).length +
                (VarInt.decode_at bytes (index + (VarInt.raw_at bytes index).length)).2)).take
                  ((index + (VarInt.raw_at bytes index).length +
                    (VarInt.decode_at bytes (index + (VarInt.raw_at bytes index).length)).2 +
                    i32AsUsize (VarInt.decode_at bytes
                      (index + (VarInt.raw_at bytes index).length)).1.as_i32) % 2 ^ 64 -
                   (index + (VarInt.raw_at bytes index).length +
                    (VarInt.decode_at bytes
                      (index + (VarInt.raw_at bytes index).length)).2))).length
                < f := by
              rw [List.length_take, List.length_drop]
              omega
            have hslice2 : (((bytes.drop (index + (VarInt.raw_at bytes index).length +
                (VarInt.decode_at bytes (index + (VarInt.raw_at bytes index).length)).2)).take
                  ((index + (VarInt.raw_at bytes index).length +
                    (VarInt.decode_at bytes (index + (VarInt.raw_at bytes index).length)).2 +
                    i32AsUsize (VarInt.decode_at bytes
                      (index + (VarInt.raw_at bytes index).length)).1.as_i32) % 2 ^ 64 -
                   (index + (VarInt.raw_at bytes index).length +
                    (VarInt.decode_at bytes
                      (index + (VarInt.raw_at bytes index).length)).2)))).length
                < g := by
              rw [List.length_take, List.length_drop]
              omega
            have hsub := IH f (by omega) g
              (((bytes.drop (index + (VarInt.raw_at bytes index).length +
                (VarInt.decode_at bytes (index + (VarInt.raw_at bytes index).length)).2)).take
                  ((index + (VarInt.raw_at bytes index).length +
                    (VarInt.decode_at bytes (index + (VarInt.raw_at bytes index).length)).2 +
                    i32AsUsize (VarInt.decode_at bytes
                      (index + (VarInt.raw_at bytes index).length)).1.as_i32) % 2 ^ 64 -
                   (index + (VarInt.raw_at bytes index).length +
                    (VarInt.decode_at bytes
                      (index + (VarInt.raw_at bytes index).length)).2)))) 0 []
              (by simpa using hslice) (by simpa using hslice2)
            rw [← hsub]
            cases hres : decodeGo f ((bytes.drop (index + (VarInt.raw_at bytes index).length +
                (VarInt.decode_at bytes (index + (VarInt.raw_at bytes index).length)).2)).take
                  ((index + (VarInt.raw_at bytes index).length +
                    (VarInt.decode_at bytes (index + (VarInt.raw_at bytes index).length)).2 +
                    i32AsUsize (VarInt.decode_at bytes
                      (index + (VarInt.raw_at bytes index).length)).1.as_i32) % 2 ^ 64 -
                   (index + (VarInt.raw_at bytes index).length +
                    (VarInt.decode_at bytes
                      (index + (VarInt.raw_at bytes index).length)).2))) 0 [] with
            | ok sub =>
              simp only
              by_cases hu : utf8Valid ((bytes.drop (index + (VarInt.raw_at bytes index).length +
                  (VarInt.decode_at bytes (index + (VarInt.raw_at bytes index).length)).2)).take
                    ((index + (VarInt.raw_at bytes index).length +
                      (VarInt.decode_at bytes (index + (VarInt.raw_at bytes index).length)).2 +
                      i32AsUsize (VarInt.decode_at bytes
                        (index + (VarInt.raw_at bytes index).length)).1.as_i32) % 2 ^ 64 -
                     (index + (VarInt.raw_at bytes index).length +
                      (VarInt.decode_at bytes
                        (index + (VarInt.raw_at bytes index).length)).2))) = true
              · rw [if_pos hu, if_pos hu]
                exact IH f (by omega) g bytes _ _ (by omega) (by omega)
              · rw [if_neg hu, if_neg hu]
                exact IH f (by omega) g bytes _ _ (by omega) (by omega)
            | error e =>
              cases e with
              | str m =>
                simp only
                by_cases hu : utf8Valid ((bytes.drop (index + (VarInt.raw_at bytes index).length +
                    (VarInt.decode_at bytes (index + (VarInt.raw_at bytes index).length)).2)).take
                      ((index + (VarInt.raw_at bytes index).length +
                        (VarInt.decode_at bytes (index + (VarInt.raw_at bytes index).length)).2 +
                        i32AsUsize (VarInt.decode_at bytes
                          (index + (VarInt.raw_at bytes index).length)).1.as_i32) % 2 ^ 64 -
                       (index + (VarInt.raw_at bytes index).length +
                        (VarInt.decode_at bytes
                          (index + (VarInt.raw_at bytes index).length)).2))) = true
                · rw [if_pos hu, if_pos hu]
                  exact IH f (by omega) g bytes _ _ (by omega) (by omega)
                · rw [if_neg hu, if_neg hu]
                  exact IH f (by omega) g bytes _ _ (by omega) (by omega)
              | crash => simp only
              | fuel => simp only
      | startGroup => simp only
      | endGroup => simp only
      | fixed32 =>
        simp only
        by_cases hc : bytes.length < index + (VarInt.raw_at bytes index).length ∨
            bytes.length < index + (VarInt.raw_at bytes index).length + 4
        · rw [if_pos hc, if_pos hc]
        · rw [if_neg hc, if_neg hc]
          exact IH f (by omega) g bytes _ _ (by omega) (by omega)
  · rw [if_neg hidx, if_neg hidx]

set_option maxHeartbeats 1000000 in
lemma decodeGo_ne_fuel (f : Nat) :
    ∀ (bytes : List Nat) (index : Nat) (acc : SerializedMessage),
      bytes.length - index < f →
      decodeGo f bytes index acc ≠ .error .fuel := by
  induction f using Nat.strong_induction_on with
  | _ f IH =>
  intro bytes index acc hf
  cases f with
  | zero => omega
  | succ f =>
  simp only [decodeGo]
  by_cases hidx : index < bytes.length
  · rw [if_pos hidx]
    have hvlen : 1 ≤ (VarInt.raw_at bytes index).length := raw_at_length_pos bytes index hidx
    cases hH : Header.decode (VarInt.raw_at bytes index) with
    | error e => simp only; intro hc; cases hc
    | ok header =>
      simp only
      obtain ⟨fn, wt⟩ := header
      cases wt with
      | varInt =>
        simp only
        exact IH f (by omega) bytes _ _ (by omega)
      | fixed64 =>
        simp only
        split
        · intro hc; cases hc
        · exact IH f (by omega) bytes _ _ (by omega)
      | lengthDelimited =>
        simp only
        split
        · intro hc; cases hc
        · split
          · intro hc; cases hc
          · rename_i hc1 hc2
            cases hres : decodeGo f ((bytes.drop (index + (VarInt.raw_at bytes index).length +
                (VarInt.decode_at bytes (index + (VarInt.raw_at bytes index).length)).2)).take
                  ((index + (VarInt.raw_at bytes index).length +
                    (VarInt.decode_at bytes (index + (VarInt.raw_at bytes index).length)).2 +
                    i32AsUsize (VarInt.decode_at bytes
                      (index + (VarInt.raw_at bytes index).length)).1.as_i32) % 2 ^ 64 -
                   (index + (VarInt.raw_at bytes index).length +
                    (VarInt.decode_at bytes
                      (index + (VarInt.raw_at bytes index).length)).2))) 0 [] with
            | ok sub =>
              simp only
              split
              · exact IH f (by omega) bytes _ _ (by omega)
              · exact IH f (by omega) bytes _ _ (by omega)
            | error e =>
              cases e with
              | str m =>
                simp only
                split
                · exact IH f (by omega) bytes _ _ (by omega)
                · exact IH f (by omega) bytes _ _ (by omega)
              | crash => simp only; intro hc; cases hc
              | fuel =>
                exact absurd hres (IH f (by omega) _ 0 []
                  (by rw [List.length_take, List.length_drop]; omega))
      | startGroup => simp only; intro hc; cases hc
      | endGroup => simp only; intro hc; cases hc
      | fixed32 =>
        simp only
        split
        · intro hc; cases hc
        · exact IH f (by omega) bytes _ _ (by omega)
  · rw [if_neg hidx]
    intro hc; cases hc

lemma encode_length (x : Int) : (VarInt.encode x).length = 5 := rfl

lemma or128_hi : ∀ b < 256, ((b ||| 128) >>> 7 == 1) = true := by decide

lemma and31_hi : ∀ b < 256, (((b &&& 31) >>> 7 == 1)) = false := by decide

lemma scanVarint_encode (x : Int) (rest : List Nat) :
    scanVarint (VarInt.encode x ++ rest) = VarInt.encode x := by
  show scanVarint ((shrU8 x 0 ||| 128) :: (shrU8 x 7 ||| 128) :: (shrU8 x 14 ||| 128) ::
    (shrU8 x 21 ||| 128) :: (shrU8 x 28 &&& 31) :: rest) = _
  simp only [scanVarint, or128_hi _ (shrU8_lt x 0), or128_hi _ (shrU8_lt x 7),
    or128_hi _ (shrU8_lt x 14), or128_hi _ (shrU8_lt x 21),
    and31_hi _ (shrU8_lt x 28), if_true, Bool.false_eq_true, if_false]
  rfl

lemma nat_cast_mod256 (n : Nat) : (((n : Int)) % 256).toNat = n % 256 := by omega

lemma and7_mod : ∀ y < 256, 7 &&& y = y % 8 := by decide

lemma header_decode_encode (f c : Nat) (hf : f < 2 ^ 28) (hc : c < 8) (w : WireType)
    (hw : WireType.tryFrom c = .ok w) :
    Header.decode (VarInt.encode ((8 * f + c : Nat) : Int)) = .ok ⟨(f : Int), w⟩ := by
  have hval : (VarInt.decode (VarInt.encode ((8 * f + c : Nat) : Int))).as_i32
      = ((8 * f + c : Nat) : Int) :=
    roundtrip32 _ (by push_cast; omega) (by push_cast; omega)
  simp only [Header.decode, hval, nat_cast_mod256]
  rw [show (0b00000111 : Nat) &&& ((8 * f + c) % 256) = c by
    rw [and7_mod _ (by omega)]; omega]
  rw [hw]
  simp only
  rw [show (((8 * f + c : Nat) : Int)) / 8 = (f : Int) by push_cast; omega]

lemma i32AsUsize_cast (L : Nat) (h : L < 2 ^ 31) : i32AsUsize (L : Int) = L := by
  unfold i32AsUsize
  omega

lemma insertKV_nil (k : Int) (v : Value) : insertKV k v [] = [(k, v)] := rfl

lemma insertKV_same (k : Int) (v w : Value) : insertKV k v [(k, w)] = [(k, v)] := by
  unfold insertKV
  rw [if_neg (lt_irrefl k), if_pos rfl]

set_option maxHeartbeats 1000000 in
lemma decode_ld_field (f : Nat) (hf : f < 2 ^ 28) (p : List Nat) (hp : p.length < 2 ^ 31) :
    decode (VarInt.encode ((8 * f + 2 : Nat) : Int) ++ VarInt.encode (p.length : Int) ++ p)
      = match decode p with
        | .error .crash => .error .crash
        | .error .fuel => .error .fuel
        | .error (.str _) =>
          if utf8Valid p then .ok [((f : Int), .string p)] else .ok [((f : Int), .bytes p)]
        | .ok sub => .ok [((f : Int), .message sub)] := by
  have hlen : (VarInt.encode ((8 * f + 2 : Nat) : Int) ++ VarInt.encode (p.length : Int)
      ++ p).length = 10 + p.length := by
    simp only [List.length_append, encode_length]
  have hdrop5 : (VarInt.encode ((8 * f + 2 : Nat) : Int) ++ VarInt.encode (p.length : Int)
      ++ p).drop 5 = VarInt.encode (p.length : Int) ++ p := by
    rw [List.append_assoc]
    rw [show (5 : Nat) = (VarInt.encode ((8 * f + 2 : Nat) : Int)).length from rfl,
      List.drop_left]
  have hdrop10 : (VarInt.encode ((8 * f + 2 : Nat) : Int) ++ VarInt.encode (p.length : Int)
      ++ p).drop 10 = p := by
    rw [show (10 : Nat) = (VarInt.encode ((8 * f + 2 : Nat) : Int)
      ++ VarInt.encode (p.length : Int)).length from rfl, List.drop_left]
  have hraw0 : VarInt.raw_at (VarInt.encode ((8 * f + 2 : Nat) : Int)
      ++ VarInt.encode (p.length : Int) ++ p) 0 = VarInt.encode ((8 * f + 2 : Nat) : Int) := by
    unfold VarInt.raw_at
    rw [List.drop_zero, List.append_assoc]
    exact scanVarint_encode _ _
  have hraw5 : VarInt.raw_at (VarInt.encode ((8 * f + 2 : Nat) : Int)
      ++ VarInt.encode (p.length : Int) ++ p) 5 = VarInt.encode (p.length : Int) := by
    unfold VarInt.raw_at
    rw [hdrop5]
    exact scanVarint_encode _ _
  have hL : (VarInt.decode (VarInt.encode (p.length : Int))).as_i32 = (p.length : Int) :=
    roundtrip32 _ (by push_cast; omega) (by push_cast; omega)
  conv_lhs => rw [decode]
  rw [hlen]
  simp only [decodeGo]
  rw [if_pos (by rw [hlen]; omega)]
  rw [hraw0, header_decode_encode f 2 hf (by omega) .lengthDelimited rfl]
  simp only [VarInt.decode_at, encode_length, Nat.zero_add, hraw5, hL,
    i32AsUsize_cast p.length hp, hlen]
  rw [if_neg (by omega : ¬(10 + p.length < 0 + 5 + 5 ∨
    10 + p.length < (0 + 5 + 5 + p.length) % 2 ^ 64))]
  rw [if_neg (by omega : ¬((0 + 5 + 5 + p.length) % 2 ^ 64 < 0 + 5 + 5))]
  rw [show (0 + 5 + 5 + p.length) % 2 ^ 64 = 10 + p.length by omega]
  rw [show (0 : Nat) + 5 + 5 = 10 by omega]
  rw [hdrop10]
  rw [show 10 + p.length - 10 = p.length from by omega, List.take_length]
  rw [show decodeGo (10 + p.length) p 0 [] = decode p from
    decodeGo_fuel_mono _ _ _ _ _ (by omega) (by omega)]
  cases hres : decode p with
  | ok sub =>
    simp only
    by_cases hu : utf8Valid p = true
    · rw [if_pos hu]
      rw [decodeGo_done _ _ _ _ (by omega) (by rw [hlen])]
      rw [insertKV_nil, insertKV_same]
    · rw [if_neg hu]
      rw [decodeGo_done _ _ _ _ (by omega) (by rw [hlen])]
      rw [insertKV_nil]
  | error e =>
    cases e with
    | str m =>
      simp only
      by_cases hu : utf8Valid p = true
      · rw [if_pos hu, if_pos hu]
        rw [decodeGo_done _ _ _ _ (by omega) (by rw [hlen])]
        rw [insertKV_nil]
      · rw [if_neg hu, if_neg hu]
        rw [decodeGo_done _ _ _ _ (by omega) (by rw [hlen])]
        rw [insertKV_nil]
    | crash => simp only
    | fuel => simp only

/-! ## Truncation behaviour -/

set_option maxHeartbeats 1000000 in
lemma decode_truncated_fixed64 (f : Nat) (hf : f < 2 ^ 28) (t : List Nat) (ht : t.length < 8) :
    decode (VarInt.encode ((8 * f + 1 : Nat) : Int) ++ t)
      = .error (.str "Invalid message; not enough bytes for a fixed64 field.") := by
  have hlen : (VarInt.encode ((8 * f + 1 : Nat) : Int) ++ t).length = 5 + t.length := by
    simp only [List.length_append, encode_length]
  have hraw0 : VarInt.raw_at (VarInt.encode ((8 * f + 1 : Nat) : Int) ++ t) 0
      = VarInt.encode ((8 * f + 1 : Nat) : Int) := by
    unfold VarInt.raw_at
    rw [List.drop_zero]
    exact scanVarint_encode _ _
  conv_lhs => rw [decode]
  rw [hlen]
  simp only [decodeGo]
  rw [if_pos (by rw [hlen]; omega)]
  rw [hraw0, header_decode_encode f 1 hf (by omega) .fixed64 rfl]
  simp only [encode_length, Nat.zero_add, hlen]
  rw [if_pos (by omega)]

set_option maxHeartbeats 1000000 in
lemma decode_truncated_fixed32 (f : Nat) (hf : f < 2 ^ 28) (t : List Nat) (ht : t.length < 4) :
    decode (VarInt.encode ((8 * f + 5 : Nat) : Int) ++ t)
      = .error (.str "Invalid message; not enough bytes for a fixed32 field.") := by
  have hlen : (VarInt.encode ((8 * f + 5 : Nat) : Int) ++ t).length = 5 + t.length := by
    simp only [List.length_append, encode_length]
  have hraw0 : VarInt.raw_at (VarInt.encode ((8 * f + 5 : Nat) : Int) ++ t) 0
      = VarInt.encode ((8 * f + 5 : Nat) : Int) := by
    unfold VarInt.raw_at
    rw [List.drop_zero]
    exact scanVarint_encode _ _
  conv_lhs => rw [decode]
  rw [hlen]
  simp only [decodeGo]
  rw [if_pos (by rw [hlen]; omega)]
  rw [hraw0, header_decode_encode f 5 hf (by omega) .fixed32 rfl]
  simp only [encode_length, Nat.zero_add, hlen]
  rw [if_pos (by omega)]

set_option maxHeartbeats 1000000 in
lemma decode_truncated_ld (f L : Nat) (hf : f < 2 ^ 28) (hL : L < 2 ^ 31)
    (t : List Nat) (ht : t.length < L) :
    decode (VarInt.encode ((8 * f + 2 : Nat) : Int) ++ VarInt.encode ((L : Nat) : Int) ++ t)
      = .error (.str "Invalid message; not enough bytes for a length-delimited field.") := by
  have hlen : (VarInt.encode ((8 * f + 2 : Nat) : Int) ++ VarInt.encode ((L : Nat) : Int)
      ++ t).length = 10 + t.length := by
    simp only [List.length_append, encode_length]
  have hdrop5 : (VarInt.encode ((8 * f + 2 : Nat) : Int) ++ VarInt.encode ((L : Nat) : Int)
      ++ t).drop 5 = VarInt.encode ((L : Nat) : Int) ++ t := by
    rw [List.append_assoc]
    rw [show (5 : Nat) = (VarInt.encode ((8 * f + 2 : Nat) : Int)).length from rfl,
      List.drop_left]
  have hraw0 : VarInt.raw_at (VarInt.encode ((8 * f + 2 : Nat) : Int)
      ++ VarInt.encode ((L : Nat) : Int) ++ t) 0
      = VarInt.encode ((8 * f + 2 : Nat) : Int) := by
    unfold VarInt.raw_at
    rw [List.drop_zero, List.append_assoc]
    exact scanVarint_encode _ _
  have hraw5 : VarInt.raw_at (VarInt.encode ((8 * f + 2 : Nat) : Int)
      ++ VarInt.encode ((L : Nat) : Int) ++ t) 5 = VarInt.encode ((L : Nat) : Int) := by
    unfold VarInt.raw_at
    rw [hdrop5]
    exact scanVarint_encode _ _
  have hLr : (VarInt.decode (VarInt.encode ((L : Nat) : Int))).as_i32 = ((L : Nat) : Int) :=
    roundtrip32 _ (by push_cast; omega) (by push_cast; omega)
  conv_lhs => rw [decode]
  rw [hlen]
  simp only [decodeGo]
  rw [if_pos (by rw [hlen]; omega)]
  rw [hraw0, header_decode_encode f 2 hf (by omega) .lengthDelimited rfl]
  simp only [VarInt.decode_at, encode_length, Nat.zero_add, hraw5, hLr,
    i32AsUsize_cast L hL, hlen]
  rw [if_pos (by omega)]

lemma scanVarint_all_cont (l : List Nat) (h : ∀ b ∈ l, b >>> 7 = 1) : scanVarint l = l := by
  induction l with
  | nil => rfl
  | cons b r ih =>
    simp only [scanVarint]
    rw [if_pos (by simp [h b (List.mem_cons_self b r)])]
    rw [ih (fun x hx => h x (List.mem_cons_of_mem b hx))]

/-! ## Claim C3 -/

/-- C3 counterexample: `[0x88, 0x80, 0x80, 0x80, 0x00, 0x81, 0x80, 0x80,
    0x80, 0x00]` (field 1, varint 1) is a valid buffer; truncating it after
    one byte cuts the header varint mid-run, yet `decode` returns `Ok`
    (the unterminated continuation run is silently consumed), not an error. -/
theorem claim_C3_counterexample :
    decode (VarInt.encode 8 ++ VarInt.encode 1) = .ok [(1, .varInt ⟨[0, 0, 0, 0, 1]⟩)] ∧
    (VarInt.encode 8 ++ VarInt.encode 1).take 1 = [136] ∧
    decode [136] = .ok [(1, .varInt ⟨[]⟩)] := ⟨rfl, rfl, rfl⟩

/-- C3 amended: truncations that land inside a fixed64 / fixed32 payload or
    inside a length-delimited payload (header and length varint intact) are
    reported as decode errors; but a truncation mid-header or mid-varint
    leaves an unterminated continuation run that `raw_at` silently returns in
    full, so `decode` may succeed with a wrong partial result instead of
    reporting an error. -/
theorem claim_C3_truncation_amended :
    (∀ (f : Nat) (t : List Nat), f < 2 ^ 28 → t.length < 8 →
      decode (VarInt.encode ((8 * f + 1 : Nat) : Int) ++ t)
        = .error (.str "Invalid message; not enough bytes for a fixed64 field.")) ∧
    (∀ (f : Nat) (t : List Nat), f < 2 ^ 28 → t.length < 4 →
      decode (VarInt.encode ((8 * f + 5 : Nat) : Int) ++ t)
        = .error (.str "Invalid message; not enough bytes for a fixed32 field.")) ∧
    (∀ (f L : Nat) (t : List Nat), f < 2 ^ 28 → L < 2 ^ 31 → t.length < L →
      decode (VarInt.encode ((8 * f + 2 : Nat) : Int) ++ VarInt.encode ((L : Nat) : Int) ++ t)
        = .error (.str "Invalid message; not enough bytes for a length-delimited field.")) ∧
    (∀ (bytes : List Nat) (index : Nat), (∀ b ∈ bytes.drop index, b >>> 7 = 1) →
      VarInt.raw_at bytes index = bytes.drop index) :=
  ⟨fun f t hf ht => decode_truncated_fixed64 f hf t ht,
   fun f t hf ht => decode_truncated_fixed32 f hf t ht,
   fun f L t hf hL ht => decode_truncated_ld f L hf hL t ht,
   fun _ _ h => scanVarint_all_cont _ h⟩

/-- Witness for the amended C3 at concrete truncated buffers. -/
theorem claim_C3_truncation_amended_witness :
    decode (VarInt.encode ((8 * 1 + 1 : Nat) : Int) ++ [1, 2, 3])
      = .error (.str "Invalid message; not enough bytes for a fixed64 field.") ∧
    decode (VarInt.encode ((8 * 1 + 5 : Nat) : Int) ++ [1, 2])
      = .error (.str "Invalid message; not enough bytes for a fixed32 field.") ∧
    decode (VarInt.encode ((8 * 1 + 2 : Nat) : Int) ++ VarInt.encode ((3 : Nat) : Int) ++ [7])
      = .error (.str "Invalid message; not enough bytes for a length-delimited field.") ∧
    VarInt.raw_at [136, 129] 0 = [136, 129] :=
  ⟨claim_C3_truncation_amended.1 1 [1, 2, 3] (by norm_num) (by norm_num),
   claim_C3_truncation_amended.2.1 1 [1, 2] (by norm_num) (by norm_num),
   claim_C3_truncation_amended.2.2.1 1 3 [7] (by norm_num) (by norm_num) (by norm_num),
   claim_C3_truncation_amended.2.2.2 [136, 129] 0 (by decide)⟩

/-! ## Claim C7 -/

/-- C7: encoding field 1 with the signed 32-bit value −33334 through
    `write_i32` (header with VarInt wire type, payload `VarInt::encode`, no
    zigzag) and decoding the result yields exactly `{1 ↦ VarInt}` whose
    `as_i32` is −33334.  (`Header::new`/`to_bytes` are spec-modelled.) -/
theorem claim_C7_scenario_a :
    decode (write_i32 [] 1 (-33334)) = .ok [(1, .varInt ⟨[31, 127, 125, 123, 74]⟩)] ∧
    (VarInt.mk [31, 127, 125, 123, 74]).as_i32 = -33334 := ⟨rfl, rfl⟩

/-! ## Claim C8 -/

/-- C8: decoding the empty buffer yields `Ok` with the empty mapping, and the
    loop guard is checked before each header read — at any index at or past
    the end of the buffer the loop immediately returns the accumulated
    message without consuming a header. -/
theorem claim_C8_empty_buffer :
    decode [] = .ok [] ∧
    ∀ (fuel : Nat) (bytes : List Nat) (index : Nat) (acc : SerializedMessage),
      bytes.length ≤ index → decodeGo (fuel + 1) bytes index acc = .ok acc := by
  refine ⟨rfl, ?_⟩
  intro fuel bytes index acc h
  simp only [decodeGo]
  rw [if_neg (by omega)]

/-- Witness for C8: a header byte that would begin exactly at the end of
    `[8]` is not consumed. -/
theorem claim_C8_empty_buffer_witness :
    decode [] = .ok [] ∧ decodeGo 3 [8] 1 [] = .ok [] :=
  ⟨claim_C8_empty_buffer.1, claim_C8_empty_buffer.2 2 [8] 1 [] (by norm_num)⟩

/-! ## Claim C9 -/

/-- C9: `decode` terminates on every finite buffer.  Under the loop guard the
    header scan returns at least one byte; any fuel beyond the buffer length
    computes the same result as `decode`; and `decode` never exhausts its
    fuel (the distinguished `fuel` outcome is unreachable), which is the
    fuel-based statement of the well-founded decreasing measure. -/
theorem claim_C9_terminates :
    (∀ (bytes : List Nat) (index : Nat), index < bytes.length →
      1 ≤ (VarInt.raw_at bytes index).length) ∧
    (∀ (bytes : List Nat) (fuel : Nat), bytes.length < fuel →
      decodeGo fuel bytes 0 [] = decode bytes) ∧
    (∀ bytes : List Nat, decode bytes ≠ .error .fuel) :=
  ⟨raw_at_length_pos,
   fun bytes fuel h =>
     decodeGo_fuel_mono fuel (bytes.length + 1) bytes 0 [] (by omega) (by omega),
   fun bytes => decodeGo_ne_fuel (bytes.length + 1) bytes 0 [] (by omega)⟩

/-- Witness for C9 at a concrete buffer. -/
theorem claim_C9_terminates_witness :
    1 ≤ (VarInt.raw_at [136, 0] 0).length ∧
    decodeGo 17 [136, 0] 0 [] = decode [136, 0] ∧
    decode [136, 0] ≠ .error .fuel :=
  ⟨claim_C9_terminates.1 [136, 0] 0 (by norm_num),
   claim_C9_terminates.2.1 [136, 0] 17 (by norm_num),
   claim_C9_terminates.2.2 [136, 0]⟩

/-! ## Claim C4 -/

lemma foldl_lt_two_pow (w : Nat) (l : List Nat) (a : Nat) (ha : a < 2 ^ w)
    (h : ∀ b ∈ l, b < 2 ^ w) : l.foldl (foldStep w) a < 2 ^ w := by
  induction l generalizing a with
  | nil => simpa using ha
  | cons b r ih =>
    simp only [List.foldl]
    apply ih
    · exact Nat.or_lt_two_pow (Nat.mod_lt _ (Nat.two_pow_pos w))
        (h b (List.mem_cons_self b r))
    · intro x hx
      exact h x (List.mem_cons_of_mem b hx)

lemma decode_data_lt (bytes : List Nat) : ∀ b ∈ (VarInt.decode bytes).data, b < 256 := by
  intro b hb
  simp only [VarInt.decode, List.mem_reverse, List.mem_map] at hb
  obtain ⟨x, _, rfl⟩ := hb
  have hle : x &&& 127 ≤ 127 := Nat.and_le_right
  omega

lemma decode_pattern32_lt (bytes : List Nat) : (VarInt.decode bytes).pattern 32 < 2 ^ 32 :=
  foldl_lt_two_pow 32 _ 0 (by norm_num)
    (fun b hb => lt_trans (decode_data_lt bytes b hb) (by norm_num))

lemma toSigned32_mod256 (P : Nat) (_hP : P < 2 ^ 32) :
    ((toSigned 32 P) % 256).toNat = P % 256 := by
  unfold toSigned
  split <;> omega

/-- C4 counterexample: the header varint `VarInt::encode(-8)` projects to the
    negative value −8, yet `Header::decode` succeeds (wire type VarInt, field
    number −1 by arithmetic shift) and `decode` returns `Ok`, not an
    InvalidWireType error. -/
theorem claim_C4_counterexample :
    Header.decode (VarInt.encode (-8)) = .ok ⟨-1, .varInt⟩ ∧
    (VarInt.decode (VarInt.encode (-8))).as_i32 = -8 ∧
    decode (VarInt.encode (-8)) = .ok [(-1, .varInt ⟨[]⟩)] := ⟨rfl, rfl, rfl⟩

/-- C4 amended: `Header::decode` never checks the sign of the 32-bit
    projection.  It fails exactly when the low 3 bits of the projected
    pattern do not map to one of the six wire-type codes (i.e. are 6 or 7);
    when it succeeds, the field number is the arithmetic shift
    `as_i32 >> 3` (floor division by 8, negative when the projection is
    negative) and the wire type corresponds to `pattern % 8`. -/
theorem claim_C4_header_amended (bytes : List Nat) :
    (∀ hd, Header.decode bytes = .ok hd →
      hd.field_number = (VarInt.decode bytes).as_i32 / 8 ∧
      WireType.code hd.wire_type = (VarInt.decode bytes).pattern 32 % 8) ∧
    (Header.decode bytes = .error () ↔ 5 < (VarInt.decode bytes).pattern 32 % 8) := by
  have hP : (VarInt.decode bytes).pattern 32 < 2 ^ 32 := decode_pattern32_lt bytes
  simp only [Header.decode, VarInt.as_i32]
  rw [toSigned32_mod256 _ hP, and7_mod _ (Nat.mod_lt _ (by norm_num)),
    Nat.mod_mod_of_dvd _ (by norm_num : (8 : Nat) ∣ 256)]
  have h8 : (VarInt.decode bytes).pattern 32 % 8 = 0 ∨
      (VarInt.decode bytes).pattern 32 % 8 = 1 ∨
      (VarInt.decode bytes).pattern 32 % 8 = 2 ∨
      (VarInt.decode bytes).pattern 32 % 8 = 3 ∨
      (VarInt.decode bytes).pattern 32 % 8 = 4 ∨
      (VarInt.decode bytes).pattern 32 % 8 = 5 ∨
      (VarInt.decode bytes).pattern 32 % 8 = 6 ∨
      (VarInt.decode bytes).pattern 32 % 8 = 7 := by omega
  rcases h8 with h | h | h | h | h | h | h | h <;> rw [h] <;>
    simp only [WireType.tryFrom] <;> constructor
  · intro hd heq
    injection heq with heq2
    rw [← heq2]
    exact ⟨rfl, rfl⟩
  · constructor
    · intro hc; cases hc
    · omega
  · intro hd heq
    injection heq with heq2
    rw [← heq2]
    exact ⟨rfl, rfl⟩
  · constructor
    · intro hc; cases hc
    · omega
  · intro hd heq
    injection heq with heq2
    rw [← heq2]
    exact ⟨rfl, rfl⟩
  · constructor
    · intro hc; cases hc
    · omega
  · intro hd heq
    injection heq with heq2
    rw [← heq2]
    exact ⟨rfl, rfl⟩
  · constructor
    · intro hc; cases hc
    · omega
  · intro hd heq
    injection heq with heq2
    rw [← heq2]
    exact ⟨rfl, rfl⟩
  · constructor
    · intro hc; cases hc
    · omega
  · intro hd heq
    injection heq with heq2
    rw [← heq2]
    exact ⟨rfl, rfl⟩
  · constructor
    · intro hc; cases hc
    · omega
  · intro hd heq
    cases heq
  · exact ⟨fun _ => by omega, fun _ => trivial⟩
  · intro hd heq
    cases heq
  · exact ⟨fun _ => by omega, fun _ => trivial⟩

/-- Witness for the amended C4 at the concrete header bytes of
    `VarInt::encode(-8)` (negative projection, wire bits 0). -/
theorem claim_C4_header_amended_witness :
    (-1 : Int) = (VarInt.decode (VarInt.encode (-8))).as_i32 / 8 ∧
    WireType.code .varInt = (VarInt.decode (VarInt.encode (-8))).pattern 32 % 8 :=
  (claim_C4_header_amended (VarInt.encode (-8))).1 ⟨-1, .varInt⟩ rfl

/-! ## Claim C5 -/

lemma as_u32_eq (v : VarInt) :
    v.as_u32 = if v.as_i32 < 0 then none else some v.as_i32.toNat := rfl

lemma as_u64_eq (v : VarInt) :
    v.as_u64 = if v.as_i64 < 0 then none else some v.as_i64.toNat := rfl

lemma as_i32_range (v : VarInt) (h : ∀ b ∈ v.data, b < 256) :
    -(2 ^ 31) ≤ v.as_i32 ∧ v.as_i32 < 2 ^ 31 := by
  have hP : v.pattern 32 < 2 ^ 32 :=
    foldl_lt_two_pow 32 v.data 0 (by norm_num)
      (fun b hb => lt_trans (h b hb) (by norm_num))
  show -(2 ^ 31) ≤ toSigned 32 (v.pattern 32) ∧ toSigned 32 (v.pattern 32) < 2 ^ 31
  unfold toSigned
  split <;> constructor <;> omega

lemma serializeView_unsigned_none (v : VarInt) (h : ∀ b ∈ v.data, b < 256) :
    (v.serializeView).u32 = none ∧ (v.serializeView).u64 = none := by
  obtain ⟨hlo, hhi⟩ := as_i32_range v h
  unfold VarInt.serializeView
  cases hca : v.as_u32 with
  | none => exact ⟨rfl, rfl⟩
  | some u =>
    rw [as_u32_eq] at hca
    split at hca
    · cases hca
    · rename_i hneg
      injection hca with hval
      simp only
      rw [if_neg (by omega)]
      exact ⟨rfl, rfl⟩

/-- C5: in the serialization view the 32-bit unsigned projection is kept as a
    candidate exactly when the signed projection is negative and a valid
    unsigned reading exists (which never happens together, so the candidate
    is never emitted); and `as_u32`/`as_u64` return the unsigned
    reinterpretation exactly when the corresponding signed projection is
    non-negative, signalling absence otherwise. -/
theorem claim_C5_unsigned_candidates (v : VarInt) (h : ∀ b ∈ v.data, b < 256) :
    ((v.serializeView).u32.isSome ↔ v.as_i32 < 0 ∧ (v.as_u32).isSome) ∧
    ((v.as_u32).isSome ↔ 0 ≤ v.as_i32) ∧
    (∀ u, v.as_u32 = some u → (u : Int) = v.as_i32) ∧
    ((v.as_u64).isSome ↔ 0 ≤ v.as_i64) ∧
    (∀ u, v.as_u64 = some u → (u : Int) = v.as_i64) := by
  refine ⟨?_, ?_, ?_, ?_, ?_⟩
  · rw [(serializeView_unsigned_none v h).1]
    constructor
    · intro hc
      cases hc
    · rintro ⟨hneg, hsome⟩
      rw [as_u32_eq, if_pos hneg] at hsome
      cases hsome
  · rw [as_u32_eq]
    by_cases hneg : v.as_i32 < 0
    · rw [if_pos hneg]
      constructor
      · intro hc; cases hc
      · intro hc; omega
    · rw [if_neg hneg]
      constructor
      · intro _; omega
      · intro _; rfl
  · intro u hu
    rw [as_u32_eq] at hu
    split at hu
    · cases hu
    · rename_i hneg
      injection hu with hval
      omega
  · rw [as_u64_eq]
    by_cases hneg : v.as_i64 < 0
    · rw [if_pos hneg]
      constructor
      · intro hc; cases hc
      · intro hc; omega
    · rw [if_neg hneg]
      constructor
      · intro _; omega
      · intro _; rfl
  · intro u hu
    rw [as_u64_eq] at hu
    split at hu
    · cases hu
    · rename_i hneg
      injection hu with hval
      omega

/-- Witness for C5 at the singleton VarInt `[1]`. -/
theorem claim_C5_unsigned_candidates_witness :
    (((VarInt.mk [1]).serializeView).u32.isSome ↔
      (VarInt.mk [1]).as_i32 < 0 ∧ ((VarInt.mk [1]).as_u32).isSome) ∧
    (((VarInt.mk [1]).as_u32).isSome ↔ 0 ≤ (VarInt.mk [1]).as_i32) ∧
    (∀ u, (VarInt.mk [1]).as_u32 = some u → (u : Int) = (VarInt.mk [1]).as_i32) ∧
    (((VarInt.mk [1]).as_u64).isSome ↔ 0 ≤ (VarInt.mk [1]).as_i64) ∧
    (∀ u, (VarInt.mk [1]).as_u64 = some u → (u : Int) = (VarInt.mk [1]).as_i64) :=
  claim_C5_unsigned_candidates (VarInt.mk [1]) (by decide)

/-! ## Claim C2 -/

/-- C2 counterexample: the payload `[0x0A, 0xFF, 0xFF, 0xFF, 0xFF, 0x1F]`
    contains a length-delimited field whose length varint projects to −1;
    the recursive sub-decode of that payload panics in Rust (slice range
    starts after its end), modelled as `crash`, and the panic is fatal to the
    outer decode — nothing is stored, refuting "a failure of the recursive
    sub-decode is never a fatal error". -/
theorem claim_C2_counterexample :
    decode (VarInt.encode ((8 * 1 + 2 : Nat) : Int) ++ VarInt.encode ((6 : Nat) : Int)
        ++ [10, 255, 255, 255, 255, 31]) = .error .crash ∧
    decode [10, 255, 255, 255, 255, 31] = .error .crash ∧
    utf8Valid [10, 255, 255, 255, 255, 31] = false := ⟨rfl, rfl, rfl⟩

/-- C2 amended: for a length-delimited field whose payload does not itself
    make the recursive sub-decode panic, the decoder stores opaque bytes when
    both the UTF-8 check and the sub-decode fail, a string when only UTF-8
    succeeds, and a nested message whenever the sub-decode succeeds (the
    message interpretation overwrites the string one when both succeed); a
    sub-decode panic, however, is fatal to the outer decode. -/
theorem claim_C2_ld_disambiguation_amended (f : Nat) (hf : f < 2 ^ 28) (p : List Nat)
    (hp : p.length < 2 ^ 31) (hnc : decode p ≠ .error .crash) :
    decode (VarInt.encode ((8 * f + 2 : Nat) : Int) ++ VarInt.encode (p.length : Int) ++ p)
      = match decode p, utf8Valid p with
        | .ok sub, true => .ok [((f : Int), .message sub)]
        | .ok sub, false => .ok [((f : Int), .message sub)]
        | .error _, true => .ok [((f : Int), .string p)]
        | .error _, false => .ok [((f : Int), .bytes p)] := by
  rw [decode_ld_field f hf p hp]
  have hnf : decode p ≠ .error .fuel := decodeGo_ne_fuel (p.length + 1) p 0 [] (by omega)
  cases hres : decode p with
  | ok sub =>
    cases hu : utf8Valid p <;> rfl
  | error e =>
    cases e with
    | str m => cases hu : utf8Valid p <;> simp [hu]
    | crash => exact absurd hres hnc
    | fuel => exact absurd hres hnf

/-- Witness for the amended C2: payload `[0xFF]` is neither valid UTF-8 nor a
    decodable message, so the field is stored as opaque bytes. -/
theorem claim_C2_ld_disambiguation_amended_witness :
    decode (VarInt.encode ((8 * 1 + 2 : Nat) : Int)
        ++ VarInt.encode (([255] : List Nat).length : Int) ++ [255])
      = .ok [(1, .bytes [255])] := by
  have h := claim_C2_ld_disambiguation_amended 1 (by norm_num) [255] (by norm_num)
    (by intro hc
        rw [show decode [255] = .error (.str "Invalid wire type specified") from rfl] at hc
        cases hc)
  rw [h]
  rfl

/-! ## Claim C10 -/

/-- C10: a length-delimited field with declared length 0 is stored as
    `Value::Message` with an empty mapping — never as an empty string and
    never as empty bytes — because the empty slice both validates as UTF-8
    and decodes as an empty message, and the message insert overwrites the
    string one. -/
theorem claim_C10_empty_ld (f : Nat) (hf : f < 2 ^ 28) :
    decode (VarInt.encode ((8 * f + 2 : Nat) : Int) ++ VarInt.encode ((0 : Nat) : Int))
      = .ok [((f : Int), .message [])] := by
  have h := decode_ld_field f hf [] (by norm_num)
  rw [List.append_nil] at h
  rw [show ((0 : Nat) : Int) = (([] : List Nat).length : Int) from rfl]
  rw [h]
  rfl

/-- Witness for C10 at field 1. -/
theorem claim_C10_empty_ld_witness :
    decode (VarInt.encode ((8 * 1 + 2 : Nat) : Int) ++ VarInt.encode ((0 : Nat) : Int))
      = .ok [(1, .message [])] := by
  have h := claim_C10_empty_ld 1 (by norm_num)
  rw [h]
  rfl

end Protoshark
